import Mathlib

/-!
Verification of the `rename_arch` GGUF architecture-renaming workflow
(`src/scripts/change_architecture.py`) against its specification.

The script itself is embedded directly from the source.  The `gguf`
library it calls (GGUFReader / GGUFWriter / the value codec) is not part
of this repository's sources, so those collaborators are modelled from
the specification's description of ValueCodec, MetadataStore,
ContainerReader and ContainerWriter.
-/

namespace GGUF

/-- Modelled from the spec: the fixed, closed enumeration of metadata value
types (`gguf.GGUFValueType`): unsigned and signed integers of widths
8/16/32/64, 32- and 64-bit floats, booleans, strings and (non-nested)
arrays. -/
inductive GGUFValueType where
  | UINT8 | INT8 | UINT16 | INT16 | UINT32 | INT32
  | FLOAT32 | BOOL | STRING | ARRAY
  | UINT64 | INT64 | FLOAT64
deriving DecidableEq, Repr

/-- Modelled from the spec: the numeric wire tag of each value type (the
`u32 value_type_tag` of the external-interface section). -/
def tagNum : GGUFValueType → Nat
  | .UINT8 => 0
  | .INT8 => 1
  | .UINT16 => 2
  | .INT16 => 3
  | .UINT32 => 4
  | .INT32 => 5
  | .FLOAT32 => 6
  | .BOOL => 7
  | .STRING => 8
  | .ARRAY => 9
  | .UINT64 => 10
  | .INT64 => 11
  | .FLOAT64 => 12

/-- Modelled from the spec: recovering a value type from its wire tag; a tag
outside the known enumeration is `UnknownValueType`, modelled as `none`. -/
def typeOfTag : Nat → Option GGUFValueType
  | 0 => some .UINT8
  | 1 => some .INT8
  | 2 => some .UINT16
  | 3 => some .INT16
  | 4 => some .UINT32
  | 5 => some .INT32
  | 6 => some .FLOAT32
  | 7 => some .BOOL
  | 8 => some .STRING
  | 9 => some .ARRAY
  | 10 => some .UINT64
  | 11 => some .INT64
  | 12 => some .FLOAT64
  | _ => none

/-- Modelled from the spec: a scalar metadata value.  Floats are carried by
their raw bit pattern, a string by its UTF-8 byte sequence. -/
inductive ScalarValue where
  | u8 (v : Nat)
  | u16 (v : Nat)
  | u32 (v : Nat)
  | u64 (v : Nat)
  | i8 (v : Int)
  | i16 (v : Int)
  | i32 (v : Int)
  | i64 (v : Int)
  | f32 (bits : Nat)
  | f64 (bits : Nat)
  | b (v : Bool)
  | str (bytes : List Nat)
deriving DecidableEq, Repr

/-- Modelled from the spec: a metadata `Value` is a scalar or an ARRAY
carrying an element-type tag and a homogeneous sequence of scalar elements
(arrays are not nested in this format). -/
inductive Value where
  | scalar (s : ScalarValue)
  | arr (et : GGUFValueType) (es : List ScalarValue)
deriving DecidableEq, Repr

/-- The value-type tag of a scalar. -/
def ScalarValue.tag : ScalarValue → GGUFValueType
  | .u8 _ => .UINT8
  | .u16 _ => .UINT16
  | .u32 _ => .UINT32
  | .u64 _ => .UINT64
  | .i8 _ => .INT8
  | .i16 _ => .INT16
  | .i32 _ => .INT32
  | .i64 _ => .INT64
  | .f32 _ => .FLOAT32
  | .f64 _ => .FLOAT64
  | .b _ => .BOOL
  | .str _ => .STRING

/-- The value-type tag of a value. -/
def Value.tag : Value → GGUFValueType
  | .scalar s => s.tag
  | .arr _ _ => .ARRAY

/-- Well-formedness of a scalar: each numeric payload fits its declared
width (signed values are in two's-complement range), and string bytes are
bytes. -/
def ScalarValue.WF : ScalarValue → Prop
  | .u8 v => v < 256
  | .u16 v => v < 65536
  | .u32 v => v < 4294967296
  | .u64 v => v < 18446744073709551616
  | .i8 v => -128 ≤ v ∧ v < 128
  | .i16 v => -32768 ≤ v ∧ v < 32768
  | .i32 v => -2147483648 ≤ v ∧ v < 2147483648
  | .i64 v => -9223372036854775808 ≤ v ∧ v < 9223372036854775808
  | .f32 bits => bits < 4294967296
  | .f64 bits => bits < 18446744073709551616
  | .b _ => True
  | .str bytes => bytes.length < 18446744073709551616 ∧ ∀ x ∈ bytes, x < 256

/-- Well-formedness of a value: scalars are well formed; an array's element
type is not ARRAY, its length fits a u64 and each element is a well-formed
scalar of exactly the declared element type. -/
def Value.WF : Value → Prop
  | .scalar s => s.WF
  | .arr et es =>
      et ≠ .ARRAY ∧ es.length < 18446744073709551616 ∧
      ∀ e ∈ es, e.WF ∧ e.tag = et

/-- Little-endian encoding of a natural number in `w` bytes. -/
def encLE : Nat → Nat → List Nat
  | 0, _ => []
  | w + 1, n => n % 256 :: encLE w (n / 256)

/-- Little-endian decoding of `w` bytes from the front of a cursor; fails if
the buffer is exhausted first (`MalformedValue`). -/
def decLE : Nat → List Nat → Option (Nat × List Nat)
  | 0, bs => some (0, bs)
  | _ + 1, [] => none
  | w + 1, h :: bs =>
    match decLE w bs with
    | some (n, rest) => some (h + 256 * n, rest)
    | none => none

/-- Reading exactly `n` raw bytes from the front of a cursor; fails if fewer
are available (`MalformedValue` for an over-long STRING length). -/
def readBytes (n : Nat) (bs : List Nat) : Option (List Nat × List Nat) :=
  if n ≤ bs.length then some (bs.take n, bs.drop n) else none

/-- Two's-complement unsigned image of a signed value for a modulus `m`. -/
def twosComp (m : Nat) (v : Int) : Nat :=
  if v < 0 then (v + (m : Int)).toNat else v.toNat

/-- Signed reinterpretation of an unsigned value `u` below modulus `m`. -/
def fromTwosComp (m : Nat) (u : Nat) : Int :=
  if u < m / 2 then (u : Int) else (u : Int) - (m : Int)

/-- Modelled from the spec: canonical encoding of a scalar: fixed-width
little-endian numerics in the declared width, `u64_length || utf8_bytes`
for STRING, one byte for BOOL. -/
def encScalar : ScalarValue → List Nat
  | .u8 v => encLE 1 v
  | .u16 v => encLE 2 v
  | .u32 v => encLE 4 v
  | .u64 v => encLE 8 v
  | .i8 v => encLE 1 (twosComp 256 v)
  | .i16 v => encLE 2 (twosComp 65536 v)
  | .i32 v => encLE 4 (twosComp 4294967296 v)
  | .i64 v => encLE 8 (twosComp 18446744073709551616 v)
  | .f32 bits => encLE 4 bits
  | .f64 bits => encLE 8 bits
  | .b v => encLE 1 (if v then 1 else 0)
  | .str bytes => encLE 8 bytes.length ++ bytes

/-- Modelled from the spec: `encode(value) -> bytes`; an ARRAY is
`u64_element_type_tag || u64_element_count || concatenated element
encodings`, each element encoded without its own type tag. -/
def encode : Value → List Nat
  | .scalar s => encScalar s
  | .arr et es => encLE 8 (tagNum et) ++ encLE 8 es.length ++ (es.map encScalar).flatten

/-- Modelled from the spec: decoding one scalar of type `t` from the front
of a cursor, advancing exactly past the encoded value. -/
def decodeScalar (t : GGUFValueType) (bs : List Nat) : Option (ScalarValue × List Nat) :=
  match t with
  | .UINT8 => (decLE 1 bs).map fun (n, rest) => (.u8 n, rest)
  | .UINT16 => (decLE 2 bs).map fun (n, rest) => (.u16 n, rest)
  | .UINT32 => (decLE 4 bs).map fun (n, rest) => (.u32 n, rest)
  | .UINT64 => (decLE 8 bs).map fun (n, rest) => (.u64 n, rest)
  | .INT8 => (decLE 1 bs).map fun (n, rest) => (.i8 (fromTwosComp 256 n), rest)
  | .INT16 => (decLE 2 bs).map fun (n, rest) => (.i16 (fromTwosComp 65536 n), rest)
  | .INT32 => (decLE 4 bs).map fun (n, rest) => (.i32 (fromTwosComp 4294967296 n), rest)
  | .INT64 => (decLE 8 bs).map fun (n, rest) => (.i64 (fromTwosComp 18446744073709551616 n), rest)
  | .FLOAT32 => (decLE 4 bs).map fun (n, rest) => (.f32 n, rest)
  | .FLOAT64 => (decLE 8 bs).map fun (n, rest) => (.f64 n, rest)
  | .BOOL => (decLE 1 bs).map fun (n, rest) => (.b (n != 0), rest)
  | .STRING =>
    match decLE 8 bs with
    | some (n, rest) =>
      match readBytes n rest with
      | some (bytes, rest2) => some (.str bytes, rest2)
      | none => none
    | none => none
  | .ARRAY => none

/-- Modelled from the spec: decoding `n` consecutive scalar elements of the
shared element type `t`. -/
def decodeN (t : GGUFValueType) : Nat → List Nat → Option (List ScalarValue × List Nat)
  | 0, bs => some ([], bs)
  | n + 1, bs =>
    match decodeScalar t bs with
    | some (v, bs1) =>
      match decodeN t n bs1 with
      | some (vs, bs2) => some (v :: vs, bs2)
      | none => none
    | none => none

/-- Modelled from the spec: `decode(cursor, type_tag) -> Value`, advancing
the cursor exactly past the encoded value; an element-type tag outside the
enumeration, or a nested ARRAY element type, fails. -/
def decode (t : GGUFValueType) (bs : List Nat) : Option (Value × List Nat) :=
  match t with
  | .ARRAY =>
    match decLE 8 bs with
    | some (tg, bs1) =>
      match typeOfTag tg with
      | some et =>
        if et = .ARRAY then none
        else
          match decLE 8 bs1 with
          | some (n, bs2) =>
            match decodeN et n bs2 with
            | some (es, bs3) => some (.arr et es, bs3)
            | none => none
          | none => none
      | none => none
    | none => none
  | t =>
    match decodeScalar t bs with
    | some (s, rest) => some (.scalar s, rest)
    | none => none

/-- Modelled from the spec: a parsed metadata field as exposed by
`ContainerReader` (the `gguf.ReaderField` the script consumes): the list of
value-type tags (`types[0]` is the field type, `types[1]` the array element
type), the raw parts the field was parsed from (byte sequences for strings,
numeric payloads otherwise, each a list of numbers), and the indices into
`parts` that hold the value data. -/
structure ReaderField where
  types : List GGUFValueType
  parts : List (List Nat)
  data : List Nat
deriving DecidableEq, Repr

/-- Modelled from the spec: a tensor record exposed by `ContainerReader`
(the `gguf.ReaderTensor` the script consumes): name, raw data bytes, shape
extents, and the dtype tag. -/
structure ReaderTensor where
  name : String
  data : List Nat
  shape : List Nat
  tensor_type : Nat
deriving DecidableEq, Repr

/-- Modelled from the spec: `ContainerReader` after a successful parse: the
ordered metadata fields (iteration order equals insertion order, i.e. file
order) and the ordered tensor records. -/
structure GGUFReader where
  fields : List (String × ReaderField)
  tensors : List ReaderTensor
deriving DecidableEq, Repr

/-- UTF-8 decoding of a byte sequence into characters (the effect of
Python's `str(bytes, encoding="utf-8")` on valid UTF-8 input). -/
def utf8Chars : List Nat → List Char
  | [] => []
  | b :: rest =>
    if b < 128 then Char.ofNat b :: utf8Chars rest
    else if b < 224 then
      match rest with
      | c1 :: rest1 => Char.ofNat ((b % 32) * 64 + c1 % 64) :: utf8Chars rest1
      | [] => []
    else if b < 240 then
      match rest with
      | c1 :: c2 :: rest2 =>
          Char.ofNat ((b % 16) * 4096 + (c1 % 64) * 64 + c2 % 64) :: utf8Chars rest2
      | _ => []
    else
      match rest with
      | c1 :: c2 :: c3 :: rest3 =>
          Char.ofNat ((b % 8) * 262144 + (c1 % 64) * 4096 + (c2 % 64) * 64 + c3 % 64) ::
            utf8Chars rest3
      | _ => []

/-- UTF-8 decoding of a byte sequence into a string. -/
def utf8Decode (bs : List Nat) : String :=
  ⟨utf8Chars bs⟩

/-- A plain value as passed by the script to `add_key_value`: a string, a
number, a list of strings or a list of numbers. -/
inductive WVal where
  | s (v : String)
  | n (v : Nat)
  | ls (vs : List String)
  | ln (vs : List Nat)
deriving DecidableEq, Repr

/-- One metadata entry held by the writer: the key, the plain value, the
declared value type and, for arrays, the declared element type. -/
structure KVEntry where
  key : String
  val : WVal
  vtype : GGUFValueType
  sub_type : Option GGUFValueType
deriving DecidableEq, Repr

/-- One tensor held by the writer, as passed to `add_tensor`: name, raw
data bytes, raw shape, raw dtype tag. -/
structure WTensor where
  name : String
  data : List Nat
  raw_shape : List Nat
  raw_dtype : Nat
deriving DecidableEq, Repr

/-- One writer operation performed by the script, in the order the script
performs them: construction, `add_key_value`, `add_tensor`, and the write
sequence `write_header_to_file`, `write_kv_data_to_file`,
`write_tensors_to_file`, `close`. -/
inductive WriterOp where
  | init (output_path arch : String)
  | add_key_value (e : KVEntry)
  | add_tensor (name : String) (data : List Nat) (raw_shape : List Nat) (raw_dtype : Nat)
  | write_header_to_file
  | write_kv_data_to_file
  | write_tensors_to_file
  | close
deriving DecidableEq, Repr

/-- The `skip_keys` list of `rename_arch`
(src/scripts/change_architecture.py line 14). -/
def skip_keys : List String :=
  ["general.architecture", "GGUF.version", "GGUF.tensor_count", "GGUF.kv_count"]

/-- The body of the metadata copy loop of `rename_arch` for one non-skipped
field (src/scripts/change_architecture.py lines 20-37): dispatch on
`field.types[0]`; a STRING value is `str(bytes(field.parts[-1]), "utf-8")`;
an ARRAY of strings maps UTF-8 decoding over the parts indexed by
`field.data`; any other ARRAY flattens the indexed parts' number lists; any
other scalar is `field.parts[-1][0]`.  (Indexing is totalized with default
values; on the well-formed readers the claims quantify over the defaults
are never hit.) -/
def fieldKV (key : String) (field : ReaderField) : KVEntry :=
  let vtype := field.types.headD .UINT8
  if vtype = .STRING then
    ⟨key, .s (utf8Decode (field.parts.getLastD [])), vtype, none⟩
  else if vtype = .ARRAY then
    let sub := field.types.getD 1 .UINT8
    if sub = .STRING then
      ⟨key, .ls (field.data.map fun idx => utf8Decode (field.parts.getD idx [])), vtype, some sub⟩
    else
      ⟨key, .ln ((field.data.map fun idx => field.parts.getD idx []).flatten), vtype, some sub⟩
  else
    ⟨key, .n ((field.parts.getLastD []).headD 0), vtype, none⟩

/-- The `add_key_value` operations performed by the metadata copy loop of
`rename_arch` (src/scripts/change_architecture.py lines 16-37): one per
field whose key is not in `skip_keys`, in the reader's iteration order. -/
def kvOps (fields : List (String × ReaderField)) : List WriterOp :=
  (fields.filter fun kf => !(skip_keys.contains kf.1)).map
    fun kf => .add_key_value (fieldKV kf.1 kf.2)

/-- The `add_tensor` operations performed by the tensor copy loop of
`rename_arch` (src/scripts/change_architecture.py lines 41-47): one per
reader tensor, in order, passing the tensor's name, data, shape and dtype
unchanged. -/
def tensorOps (tensors : List ReaderTensor) : List WriterOp :=
  tensors.map fun t => .add_tensor t.name t.data t.shape t.tensor_type

/-- The writer operations performed by `rename_arch` after constructing the
writer: the metadata copy loop, the tensor copy loop, then the write
sequence (src/scripts/change_architecture.py lines 16-53). -/
def renameArchOps (reader : GGUFReader) : List WriterOp :=
  kvOps reader.fields ++ tensorOps reader.tensors ++
    [.write_header_to_file, .write_kv_data_to_file, .write_tensors_to_file, .close]

/-- The complete sequence of writer operations performed by one run of
`rename_arch`, including the construction of the writer
(src/scripts/change_architecture.py line 11). -/
def renameArchFullTrace (reader : GGUFReader) (output_path new_arch : String) :
    List WriterOp :=
  .init output_path new_arch :: renameArchOps reader

/-- Modelled from the spec: `ContainerWriter` state: the target path, the
architecture label it was constructed with (stored as the mandatory first
metadata entry), the accumulated metadata entries in insertion order, and
the accumulated tensors in insertion order. -/
structure GGUFWriter where
  path : String
  arch : String
  kv : List KVEntry
  tensors : List WTensor
deriving DecidableEq, Repr

/-- Modelled from the spec: the writer's `UsageError`s relevant to this
workflow: `DuplicateKey` from `MetadataStore.insert` and
`DuplicateTensorName` from the descriptor table. -/
inductive WriterError where
  | DuplicateKey (key : String)
  | DuplicateTensorName (name : String)
deriving DecidableEq, Repr

/-- The mandatory first metadata entry a fresh writer holds: the
architecture label under the key `general.architecture`. -/
def archEntry (arch : String) : KVEntry :=
  ⟨"general.architecture", .s arch, .STRING, none⟩

/-- Modelled from the spec: a fresh `ContainerWriter` constructed with a
target architecture label, which it stores as the mandatory first metadata
entry; metadata and tensor tables are otherwise empty. -/
def GGUFWriter.init (output_path arch : String) : GGUFWriter :=
  ⟨output_path, arch, [archEntry arch], []⟩

/-- Whether a key is already present among the writer's entries. -/
def hasKey (kv : List KVEntry) (key : String) : Bool :=
  kv.any fun e => e.key == key

/-- Whether a tensor name is already present among the writer's tensors. -/
def hasTensor (tensors : List WTensor) (name : String) : Bool :=
  tensors.any fun t => t.name == name

/-- Modelled from the spec: the effect of one writer operation:
`add_key_value` delegates to `MetadataStore.insert` and fails with
`DuplicateKey` on a duplicate key; `add_tensor` fails with
`DuplicateTensorName` on a duplicate name; the write sequence serializes
the accumulated state without changing it. -/
def runOp (w : GGUFWriter) : WriterOp → Except WriterError GGUFWriter
  | .init _ _ => .ok w
  | .add_key_value e =>
    if hasKey w.kv e.key then .error (.DuplicateKey e.key)
    else .ok { w with kv := w.kv ++ [e] }
  | .add_tensor name data raw_shape raw_dtype =>
    if hasTensor w.tensors name then .error (.DuplicateTensorName name)
    else .ok { w with tensors := w.tensors ++ [⟨name, data, raw_shape, raw_dtype⟩] }
  | .write_header_to_file => .ok w
  | .write_kv_data_to_file => .ok w
  | .write_tensors_to_file => .ok w
  | .close => .ok w

/-- Running a sequence of writer operations from a writer state; the first
error aborts the run. -/
def runOps (w : GGUFWriter) : List WriterOp → Except WriterError GGUFWriter
  | [] => .ok w
  | op :: ops =>
    match runOp w op with
    | .ok w2 => runOps w2 ops
    | .error e => .error e

/-- The embedding of `rename_arch` (src/scripts/change_architecture.py
lines 6-53): construct a writer for `output_path` with the new architecture
name, run the copy loops and the write sequence; the result is the final
writer state (the contents of the output container). -/
def rename_arch (reader : GGUFReader) (output_path new_arch : String) :
    Except WriterError GGUFWriter :=
  runOps (GGUFWriter.init output_path new_arch) (renameArchOps reader)

/-- Whether a writer operation is an `add_key_value` or `add_tensor`. -/
def WriterOp.isAdd : WriterOp → Bool
  | .add_key_value _ => true
  | .add_tensor .. => true
  | _ => false

/-- The key of an `add_key_value` operation, if any. -/
def WriterOp.kvKey : WriterOp → Option String
  | .add_key_value e => some e.key
  | _ => none

/-- The tensor passed by an `add_tensor` operation, if any. -/
def WriterOp.tensorArg : WriterOp → Option WTensor
  | .add_tensor name data raw_shape raw_dtype => some ⟨name, data, raw_shape, raw_dtype⟩
  | _ => none

/-- The entry passed by an `add_key_value` operation, if any. -/
def WriterOp.kvArg : WriterOp → Option KVEntry
  | .add_key_value e => some e
  | _ => none

theorem decLE_encLE (w : Nat) : ∀ (n : Nat) (rest : List Nat), n < 256 ^ w →
    decLE w (encLE w n ++ rest) = some (n, rest) := by
  induction w with
  | zero =>
    intro n rest h
    simp [pow_zero] at h
    simp [h, encLE, decLE]
  | succ w ih =>
    intro n rest h
    have hdiv : n / 256 < 256 ^ w := by
      rw [Nat.div_lt_iff_lt_mul (by norm_num)]
      calc n < 256 ^ (w + 1) := h
        _ = 256 ^ w * 256 := by rw [pow_succ]
    have hn : n % 256 + 256 * (n / 256) = n := Nat.mod_add_div n 256
    simp only [encLE, List.cons_append, decLE, List.append_eq,
      ih (n / 256) rest hdiv, hn]

theorem readBytes_append (s rest : List Nat) :
    readBytes s.length (s ++ rest) = some (s, rest) := by
  simp [readBytes, List.take_left, List.drop_left]

theorem fromTwosComp_twosComp (m : Nat) (v : Int)
    (hm : 2 * (m / 2) = m) (hlo : -(((m : Nat) / 2 : Nat) : Int) ≤ v)
    (hhi : v < (((m : Nat) / 2 : Nat) : Int)) :
    fromTwosComp m (twosComp m v) = v := by
  unfold twosComp fromTwosComp
  split
  · split <;> omega
  · split <;> omega

theorem twosComp_lt (m : Nat) (v : Int) (hm : 2 * (m / 2) = m)
    (hlo : -(((m : Nat) / 2 : Nat) : Int) ≤ v)
    (hhi : v < (((m : Nat) / 2 : Nat) : Int)) :
    twosComp m v < m := by
  unfold twosComp
  split <;> omega

theorem decodeScalar_encScalar (s : ScalarValue) (rest : List Nat) (h : s.WF) :
    decodeScalar s.tag (encScalar s ++ rest) = some (s, rest) := by
  cases s with
  | u8 v =>
    simp only [ScalarValue.WF] at h
    simp [ScalarValue.tag, encScalar, decodeScalar,
      decLE_encLE 1 v rest (by norm_num; omega)]
  | u16 v =>
    simp only [ScalarValue.WF] at h
    simp [ScalarValue.tag, encScalar, decodeScalar,
      decLE_encLE 2 v rest (by norm_num; omega)]
  | u32 v =>
    simp only [ScalarValue.WF] at h
    simp [ScalarValue.tag, encScalar, decodeScalar,
      decLE_encLE 4 v rest (by norm_num; omega)]
  | u64 v =>
    simp only [ScalarValue.WF] at h
    simp [ScalarValue.tag, encScalar, decodeScalar,
      decLE_encLE 8 v rest (by norm_num; omega)]
  | i8 v =>
    simp only [ScalarValue.WF] at h
    have hlt : twosComp 256 v < 256 ^ 1 := by
      have := twosComp_lt 256 v (by norm_num) (by norm_num; omega) (by norm_num; omega)
      norm_num; omega
    simp [ScalarValue.tag, encScalar, decodeScalar, decLE_encLE 1 _ rest hlt,
      fromTwosComp_twosComp 256 v (by norm_num) (by norm_num; omega) (by norm_num; omega)]
  | i16 v =>
    simp only [ScalarValue.WF] at h
    have hlt : twosComp 65536 v < 256 ^ 2 := by
      have := twosComp_lt 65536 v (by norm_num) (by norm_num; omega) (by norm_num; omega)
      norm_num; omega
    simp [ScalarValue.tag, encScalar, decodeScalar, decLE_encLE 2 _ rest hlt,
      fromTwosComp_twosComp 65536 v (by norm_num) (by norm_num; omega) (by norm_num; omega)]
  | i32 v =>
    simp only [ScalarValue.WF] at h
    have hlt : twosComp 4294967296 v < 256 ^ 4 := by
      have := twosComp_lt 4294967296 v (by norm_num) (by norm_num; omega) (by norm_num; omega)
      norm_num; omega
    simp [ScalarValue.tag, encScalar, decodeScalar, decLE_encLE 4 _ rest hlt,
      fromTwosComp_twosComp 4294967296 v (by norm_num) (by norm_num; omega) (by norm_num; omega)]
  | i64 v =>
    simp only [ScalarValue.WF] at h
    have hlt : twosComp 18446744073709551616 v < 256 ^ 8 := by
      have := twosComp_lt 18446744073709551616 v (by norm_num) (by norm_num; omega)
        (by norm_num; omega)
      norm_num; omega
    simp [ScalarValue.tag, encScalar, decodeScalar, decLE_encLE 8 _ rest hlt,
      fromTwosComp_twosComp 18446744073709551616 v (by norm_num) (by norm_num; omega)
        (by norm_num; omega)]
  | f32 bits =>
    simp only [ScalarValue.WF] at h
    simp [ScalarValue.tag, encScalar, decodeScalar,
      decLE_encLE 4 bits rest (by norm_num; omega)]
  | f64 bits =>
    simp only [ScalarValue.WF] at h
    simp [ScalarValue.tag, encScalar, decodeScalar,
      decLE_encLE 8 bits rest (by norm_num; omega)]
  | b v =>
    have hd := decLE_encLE 1 (if v then 1 else 0) rest (by cases v <;> norm_num)
    cases v <;> simp_all [ScalarValue.tag, encScalar, decodeScalar]
  | str bytes =>
    simp only [ScalarValue.WF] at h
    have hd := decLE_encLE 8 bytes.length (bytes ++ rest) (by norm_num; omega)
    simp [ScalarValue.tag, encScalar, decodeScalar, List.append_assoc, hd, readBytes_append]

theorem decodeN_encList (t : GGUFValueType) (es : List ScalarValue) (rest : List Nat)
    (h : ∀ e ∈ es, e.WF ∧ e.tag = t) :
    decodeN t es.length ((es.map encScalar).flatten ++ rest) = some (es, rest) := by
  induction es with
  | nil => simp [decodeN]
  | cons e es ih =>
    have he := h e (List.mem_cons_self e es)
    have hrec := ih (fun x hx => h x (List.mem_cons_of_mem _ hx))
    simp only [List.map_cons, List.flatten_cons, List.length_cons, List.append_assoc, decodeN]
    rw [← he.2, decodeScalar_encScalar e _ he.1, he.2]
    simp [hrec]

theorem typeOfTag_tagNum (t : GGUFValueType) : typeOfTag (tagNum t) = some t := by
  cases t <;> rfl

theorem tagNum_lt (t : GGUFValueType) : tagNum t < 256 ^ 8 := by
  cases t <;> simp [tagNum]

/-- C3: round-trip law for the value codec: for every well-formed supported
Value (each scalar type, and ARRAY over each scalar element type, including
the empty array and the empty string), decoding the encoding at the value's
type tag consumes exactly the encoding and yields the original value. -/
theorem decode_encode_roundtrip (v : Value) (rest : List Nat) (h : v.WF) :
    decode v.tag (encode v ++ rest) = some (v, rest) := by
  cases v with
  | scalar s =>
    have hs : s.WF := h
    have hd := decodeScalar_encScalar s rest hs
    cases s <;> simp_all [Value.tag, ScalarValue.tag, encode, decode]
  | arr et es =>
    obtain ⟨hne, hlen, hes⟩ := h
    have h1 := decLE_encLE 8 (tagNum et)
      (encLE 8 es.length ++ ((es.map encScalar).flatten ++ rest)) (tagNum_lt et)
    have h2 := decLE_encLE 8 es.length ((es.map encScalar).flatten ++ rest)
      (by norm_num; omega)
    have h3 := decodeN_encList et es rest hes
    simp [Value.tag, encode, decode, List.append_assoc, h1, h2, h3,
      typeOfTag_tagNum, hne]

/-- Witness for C3 at a concrete value: an ARRAY of STRING elements holding
an empty string and the bytes of "hi" round-trips. -/
theorem decode_encode_roundtrip_witness :
    decode (Value.arr .STRING [.str [], .str [104, 105]]).tag
        (encode (.arr .STRING [.str [], .str [104, 105]]) ++ []) =
      some (.arr .STRING [.str [], .str [104, 105]], []) :=
  decode_encode_roundtrip (.arr .STRING [.str [], .str [104, 105]]) []
    (by constructor
        · simp
        · constructor
          · simp
          · intro e he
            simp [Value.WF, ScalarValue.WF] at he ⊢
            rcases he with h | h <;> subst h <;>
              simp [ScalarValue.WF, ScalarValue.tag])

theorem fieldKV_key (k : String) (f : ReaderField) : (fieldKV k f).key = k := by
  simp only [fieldKV]
  split_ifs <;> rfl

theorem hasKey_append (kv1 kv2 : List KVEntry) (k : String) :
    hasKey (kv1 ++ kv2) k = (hasKey kv1 k || hasKey kv2 k) := by
  simp [hasKey, List.any_append]

theorem hasTensor_append (t1 t2 : List WTensor) (n : String) :
    hasTensor (t1 ++ t2) n = (hasTensor t1 n || hasTensor t2 n) := by
  simp [hasTensor, List.any_append]

theorem runOps_append (l1 l2 : List WriterOp) : ∀ w : GGUFWriter,
    runOps w (l1 ++ l2) =
      match runOps w l1 with
      | .ok w2 => runOps w2 l2
      | .error err => .error err := by
  induction l1 with
  | nil => intro w; simp [runOps]
  | cons op l1 ih =>
    intro w
    simp only [List.cons_append, runOps]
    cases hop : runOp w op <;> simp [ih]

theorem runOps_kvAdds (es : List KVEntry) : ∀ w : GGUFWriter,
    (es.map KVEntry.key).Nodup →
    (∀ e ∈ es, hasKey w.kv e.key = false) →
    runOps w (es.map WriterOp.add_key_value) = .ok { w with kv := w.kv ++ es } := by
  induction es with
  | nil => intro w _ _; simp [runOps]
  | cons e es ih =>
    intro w hnd hfresh
    obtain ⟨hnotin, hndtail⟩ := List.nodup_cons.mp hnd
    have he : hasKey w.kv e.key = false := hfresh e (List.mem_cons_self e es)
    have hx : ∀ x ∈ es, hasKey (w.kv ++ [e]) x.key = false := by
      intro x hxmem
      have h1 : hasKey w.kv x.key = false := hfresh x (List.mem_cons_of_mem _ hxmem)
      have h2 : e.key ≠ x.key := by
        intro hEq
        exact hnotin (hEq ▸ List.mem_map_of_mem KVEntry.key hxmem)
      rw [hasKey_append, h1]
      simp [hasKey, h2]
    simp only [List.map_cons, runOps, runOp, he, Bool.false_eq_true, if_false]
    rw [ih { w with kv := w.kv ++ [e] } hndtail hx]
    simp

theorem runOps_tensorAdds (ts : List ReaderTensor) : ∀ w : GGUFWriter,
    (ts.map ReaderTensor.name).Nodup →
    (∀ t ∈ ts, hasTensor w.tensors t.name = false) →
    runOps w (tensorOps ts) =
      .ok { w with tensors :=
        w.tensors ++ ts.map fun t => ⟨t.name, t.data, t.shape, t.tensor_type⟩ } := by
  induction ts with
  | nil => intro w _ _; simp [tensorOps, runOps]
  | cons t ts ih =>
    intro w hnd hfresh
    obtain ⟨hnotin, hndtail⟩ := List.nodup_cons.mp hnd
    have ht : hasTensor w.tensors t.name = false := hfresh t (List.mem_cons_self t ts)
    have hx : ∀ x ∈ ts,
        hasTensor (w.tensors ++ [⟨t.name, t.data, t.shape, t.tensor_type⟩]) x.name = false := by
      intro x hxmem
      have h1 : hasTensor w.tensors x.name = false := hfresh x (List.mem_cons_of_mem _ hxmem)
      have h2 : t.name ≠ x.name := by
        intro hEq
        exact hnotin (hEq ▸ List.mem_map_of_mem ReaderTensor.name hxmem)
      rw [hasTensor_append, h1]
      simp [hasTensor, h2]
    simp only [tensorOps, List.map_cons, runOps, runOp, ht, Bool.false_eq_true, if_false]
    have := ih { w with tensors := w.tensors ++ [⟨t.name, t.data, t.shape, t.tensor_type⟩] }
      hndtail hx
    simp only [tensorOps] at this
    rw [this]
    simp

theorem kvOps_eq_map (fields : List (String × ReaderField)) :
    kvOps fields =
      ((fields.filter fun kf => !(skip_keys.contains kf.1)).map
        fun kf => fieldKV kf.1 kf.2).map WriterOp.add_key_value := by
  simp [kvOps, List.map_map, Function.comp]

theorem copied_keys (fields : List (String × ReaderField)) :
    (((fields.filter fun kf => !(skip_keys.contains kf.1)).map
        fun kf => fieldKV kf.1 kf.2).map KVEntry.key) =
      (fields.filter fun kf => !(skip_keys.contains kf.1)).map Prod.fst := by
  simp [List.map_map, Function.comp, fieldKV_key]

theorem copied_keys_nodup (fields : List (String × ReaderField))
    (h : (fields.map Prod.fst).Nodup) :
    (((fields.filter fun kf => !(skip_keys.contains kf.1)).map
        fun kf => fieldKV kf.1 kf.2).map KVEntry.key).Nodup := by
  rw [copied_keys]
  exact h.sublist ((List.filter_sublist fields).map Prod.fst)

theorem copied_key_not_skip {fields : List (String × ReaderField)} {e : KVEntry}
    (he : e ∈ (fields.filter fun kf => !(skip_keys.contains kf.1)).map
      fun kf => fieldKV kf.1 kf.2) :
    skip_keys.contains e.key = false := by
  obtain ⟨kf, hmem, rfl⟩ := List.mem_map.mp he
  rw [fieldKV_key]
  have := (List.mem_filter.mp hmem).2
  simpa using this

theorem copied_fresh (fields : List (String × ReaderField)) (arch : String) :
    ∀ e ∈ (fields.filter fun kf => !(skip_keys.contains kf.1)).map
      fun kf => fieldKV kf.1 kf.2,
      hasKey [archEntry arch] e.key = false := by
  intro e he
  have h := copied_key_not_skip he
  simp only [skip_keys, List.contains_cons] at h
  simp only [hasKey, archEntry, List.any_cons, List.any_nil, Bool.or_false]
  cases hb : "general.architecture" == e.key with
  | false => rfl
  | true =>
    exfalso
    have hb2 : "general.architecture" = e.key := eq_of_beq hb
    simp [← hb2] at h

theorem rename_arch_run (reader : GGUFReader) (output_path new_arch : String)
    (hkeys : (reader.fields.map Prod.fst).Nodup)
    (hnames : (reader.tensors.map ReaderTensor.name).Nodup) :
    rename_arch reader output_path new_arch =
      .ok ⟨output_path, new_arch,
        archEntry new_arch ::
          (reader.fields.filter fun kf => !(skip_keys.contains kf.1)).map
            (fun kf => fieldKV kf.1 kf.2),
        reader.tensors.map fun t => ⟨t.name, t.data, t.shape, t.tensor_type⟩⟩ := by
  have hkv : runOps (GGUFWriter.init output_path new_arch) (kvOps reader.fields) =
      .ok ⟨output_path, new_arch,
        archEntry new_arch ::
          (reader.fields.filter fun kf => !(skip_keys.contains kf.1)).map
            (fun kf => fieldKV kf.1 kf.2), []⟩ := by
    rw [kvOps_eq_map,
      runOps_kvAdds _ (GGUFWriter.init output_path new_arch)
        (copied_keys_nodup reader.fields hkeys)
        (copied_fresh reader.fields new_arch)]
    simp [GGUFWriter.init]
  have htens : runOps
      (⟨output_path, new_arch,
        archEntry new_arch ::
          (reader.fields.filter fun kf => !(skip_keys.contains kf.1)).map
            (fun kf => fieldKV kf.1 kf.2), []⟩ : GGUFWriter)
      (tensorOps reader.tensors) =
      .ok ⟨output_path, new_arch,
        archEntry new_arch ::
          (reader.fields.filter fun kf => !(skip_keys.contains kf.1)).map
            (fun kf => fieldKV kf.1 kf.2),
        reader.tensors.map fun t => ⟨t.name, t.data, t.shape, t.tensor_type⟩⟩ := by
    rw [runOps_tensorAdds reader.tensors _ hnames (by intro t _; simp [hasTensor])]
    simp
  unfold rename_arch renameArchOps
  rw [runOps_append, runOps_append]
  simp only [hkv, htens]
  simp [runOps, runOp]

/-- C1: frame effect of `rename_arch`: for every readable input container
(distinct field keys and tensor names) the run succeeds, the output's
`general.architecture` metadata value is the new name, every other
non-bookkeeping metadata entry is exactly the entry extracted from the
input field of the same key in the same order, and every tensor's bytes are
identical to the input's. -/
theorem rename_arch_frame (reader : GGUFReader) (output_path new_arch : String)
    (hkeys : (reader.fields.map Prod.fst).Nodup)
    (hnames : (reader.tensors.map ReaderTensor.name).Nodup) :
    ∃ w : GGUFWriter,
      rename_arch reader output_path new_arch = .ok w ∧
      ((w.kv.find? fun e => e.key == "general.architecture").map KVEntry.val) =
        some (.s new_arch) ∧
      (w.kv.filter fun e => !(skip_keys.contains e.key)) =
        (reader.fields.filter fun kf => !(skip_keys.contains kf.1)).map
          (fun kf => fieldKV kf.1 kf.2) ∧
      w.tensors.map WTensor.data = reader.tensors.map ReaderTensor.data := by
  refine ⟨_, rename_arch_run reader output_path new_arch hkeys hnames, ?_, ?_, ?_⟩
  · simp [List.find?_cons, archEntry]
  · rw [List.filter_cons]
    have harch : (skip_keys.contains (archEntry new_arch).key) = true := by
      simp [skip_keys, archEntry]
    rw [harch]
    simp only [Bool.not_true, Bool.false_eq_true, if_false]
    exact List.filter_eq_self.mpr fun e he => by rw [copied_key_not_skip he]; rfl
  · simp [List.map_map, Function.comp]

/-- Witness for C1 at a concrete container with one extra string field, one
integer field and one tensor. -/
theorem rename_arch_frame_witness :
    ((GGUFReader.mk
        [("general.architecture", ⟨[.STRING], [[97]], []⟩),
         ("n.heads", ⟨[.UINT32], [[8]], []⟩)]
        [⟨"t0", [1, 2, 3, 4], [1], 0⟩]).fields.map Prod.fst).Nodup ∧
    (((GGUFReader.mk
        [("general.architecture", ⟨[.STRING], [[97]], []⟩),
         ("n.heads", ⟨[.UINT32], [[8]], []⟩)]
        [⟨"t0", [1, 2, 3, 4], [1], 0⟩]).tensors.map ReaderTensor.name).Nodup) ∧
    ∃ w : GGUFWriter,
      rename_arch
        (GGUFReader.mk
          [("general.architecture", ⟨[.STRING], [[97]], []⟩),
           ("n.heads", ⟨[.UINT32], [[8]], []⟩)]
          [⟨"t0", [1, 2, 3, 4], [1], 0⟩]) "out.gguf" "beta" = .ok w ∧
      ((w.kv.find? fun e => e.key == "general.architecture").map KVEntry.val) =
        some (.s "beta") ∧
      (w.kv.filter fun e => !(skip_keys.contains e.key)) =
        ((GGUFReader.mk
          [("general.architecture", ⟨[.STRING], [[97]], []⟩),
           ("n.heads", ⟨[.UINT32], [[8]], []⟩)]
          [⟨"t0", [1, 2, 3, 4], [1], 0⟩]).fields.filter
            fun kf => !(skip_keys.contains kf.1)).map
          (fun kf => fieldKV kf.1 kf.2) ∧
      w.tensors.map WTensor.data =
        (GGUFReader.mk
          [("general.architecture", ⟨[.STRING], [[97]], []⟩),
           ("n.heads", ⟨[.UINT32], [[8]], []⟩)]
          [⟨"t0", [1, 2, 3, 4], [1], 0⟩]).tensors.map ReaderTensor.data :=
  ⟨by decide, by decide,
    rename_arch_frame
      (GGUFReader.mk
        [("general.architecture", ⟨[.STRING], [[97]], []⟩),
         ("n.heads", ⟨[.UINT32], [[8]], []⟩)]
        [⟨"t0", [1, 2, 3, 4], [1], 0⟩]) "out.gguf" "beta" (by decide) (by decide)⟩

/-- C2: the metadata copy loop of `rename_arch` never passes the header
bookkeeping keys `GGUF.version`, `GGUF.tensor_count`, `GGUF.kv_count`, nor
`general.architecture`, to `add_key_value`: every `add_key_value` operation
in a run has a key outside `skip_keys`. -/
theorem rename_arch_skips_bookkeeping (reader : GGUFReader) (op : WriterOp) (e : KVEntry)
    (hop : op ∈ renameArchOps reader) (he : op = .add_key_value e) :
    e.key ∉ skip_keys := by
  subst he
  simp only [renameArchOps, List.mem_append] at hop
  rcases hop with (hk | ht) | hw
  · rw [kvOps_eq_map] at hk
    obtain ⟨x, hx, hxe⟩ := List.mem_map.mp hk
    have hxeq : x = e := by injection hxe
    subst hxeq
    have h := copied_key_not_skip hx
    intro hmem
    simp [hmem] at h
  · exfalso
    simp [tensorOps] at ht
  · exfalso
    simp at hw

/-- Witness for C2 at a concrete reader with one copied integer field. -/
theorem rename_arch_skips_bookkeeping_witness :
    WriterOp.add_key_value (fieldKV "n.heads" ⟨[.UINT32], [[8]], []⟩) ∈
        renameArchOps (GGUFReader.mk [("n.heads", ⟨[.UINT32], [[8]], []⟩)] []) ∧
    WriterOp.add_key_value (fieldKV "n.heads" ⟨[.UINT32], [[8]], []⟩) =
        WriterOp.add_key_value (fieldKV "n.heads" ⟨[.UINT32], [[8]], []⟩) ∧
    (fieldKV "n.heads" (⟨[.UINT32], [[8]], []⟩ : ReaderField)).key ∉ skip_keys :=
  ⟨by decide, rfl,
    rename_arch_skips_bookkeeping (GGUFReader.mk [("n.heads", ⟨[.UINT32], [[8]], []⟩)] [])
      (.add_key_value (fieldKV "n.heads" ⟨[.UINT32], [[8]], []⟩))
      (fieldKV "n.heads" ⟨[.UINT32], [[8]], []⟩) (by decide) rfl⟩

theorem filterMap_fn_none {α β : Type} (l : List α) :
    l.filterMap (fun _ => (none : Option β)) = [] := by
  induction l <;> simp_all [List.filterMap_cons]

theorem filterMap_fn_some {α β : Type} (f : α → β) (l : List α) :
    l.filterMap (fun x => some (f x)) = l.map f := by
  induction l <;> simp_all [List.filterMap_cons]

/-- C4: `rename_arch` adds every reader tensor to the writer, in the
reader's declaration order, with unchanged name, data bytes, shape and
dtype tag; consequently the number of `add_tensor` operations equals the
number of tensors read. -/
theorem rename_arch_copies_all_tensors (reader : GGUFReader) :
    (renameArchOps reader).filterMap WriterOp.tensorArg =
      reader.tensors.map (fun t => ⟨t.name, t.data, t.shape, t.tensor_type⟩) ∧
    ((renameArchOps reader).filterMap WriterOp.tensorArg).length =
      reader.tensors.length := by
  have h : (renameArchOps reader).filterMap WriterOp.tensorArg =
      reader.tensors.map fun t => ⟨t.name, t.data, t.shape, t.tensor_type⟩ := by
    simp [renameArchOps, kvOps, tensorOps, List.filterMap_append, List.filterMap_map,
      Function.comp_def, WriterOp.tensorArg, filterMap_fn_none, filterMap_fn_some]
  exact ⟨h, by rw [h, List.length_map]⟩

/-- C5: the metadata entries copied by `rename_arch` are passed to the
writer in exactly the reader's iteration order: the sequence of
`add_key_value` operations equals the in-order sequence of non-skipped
reader fields, and in particular the copied keys appear in the reader's
key order. -/
theorem rename_arch_preserves_kv_order (reader : GGUFReader) :
    (renameArchOps reader).filterMap WriterOp.kvArg =
      (reader.fields.filter fun kf => !(skip_keys.contains kf.1)).map
        (fun kf => fieldKV kf.1 kf.2) ∧
    (renameArchOps reader).filterMap WriterOp.kvKey =
      (reader.fields.filter fun kf => !(skip_keys.contains kf.1)).map Prod.fst := by
  constructor
  · simp [renameArchOps, kvOps, tensorOps, List.filterMap_append, List.filterMap_map,
      Function.comp_def, WriterOp.kvArg, filterMap_fn_none, filterMap_fn_some]
  · simp [renameArchOps, kvOps, tensorOps, List.filterMap_append, List.filterMap_map,
      Function.comp_def, WriterOp.kvKey, fieldKV_key, filterMap_fn_none, filterMap_fn_some]

/-- C6: in every run of `rename_arch` all `add_key_value` and `add_tensor`
operations occur strictly before the write sequence, and the write sequence
is exactly header, then key-value data, then tensor data (then close), in
that fixed order with no interleaving. -/
theorem rename_arch_phase_order (reader : GGUFReader) :
    ∃ adds : List WriterOp,
      renameArchOps reader =
        adds ++
          [.write_header_to_file, .write_kv_data_to_file, .write_tensors_to_file, .close] ∧
      ∀ op ∈ adds, op.isAdd = true := by
  refine ⟨kvOps reader.fields ++ tensorOps reader.tensors, rfl, ?_⟩
  intro op hop
  rcases List.mem_append.mp hop with hk | ht
  · rw [kvOps_eq_map] at hk
    obtain ⟨x, _, rfl⟩ := List.mem_map.mp hk
    rfl
  · simp only [tensorOps] at ht
    obtain ⟨t, _, rfl⟩ := List.mem_map.mp ht
    rfl

/-- C7: every copied ARRAY-typed field is re-added with the same
element-type tag (`field.types[1]`) and its elements in stored order: for a
STRING element type each element is the UTF-8 decoding of its stored bytes,
and for any other element type the numeric values are passed unchanged
(flattened from the indexed parts). -/
theorem rename_arch_array_copy (reader : GGUFReader) (key : String) (field : ReaderField)
    (hmem : (key, field) ∈ reader.fields) (hskip : key ∉ skip_keys)
    (htype : field.types.head? = some .ARRAY) :
    WriterOp.add_key_value
      ⟨key,
        if field.types.getD 1 .UINT8 = .STRING then
          .ls (field.data.map fun idx => utf8Decode (field.parts.getD idx []))
        else
          .ln ((field.data.map fun idx => field.parts.getD idx []).flatten),
        .ARRAY, some (field.types.getD 1 .UINT8)⟩ ∈ renameArchOps reader := by
  have hhead : field.types.headD .UINT8 = .ARRAY := by
    rw [field.types.headD_eq_head?, htype]
    rfl
  have hkv : fieldKV key field =
      ⟨key,
        if field.types.getD 1 .UINT8 = .STRING then
          .ls (field.data.map fun idx => utf8Decode (field.parts.getD idx []))
        else
          .ln ((field.data.map fun idx => field.parts.getD idx []).flatten),
        .ARRAY, some (field.types.getD 1 .UINT8)⟩ := by
    unfold fieldKV
    rw [hhead]
    simp only [reduceCtorEq, if_false, if_true, reduceIte]
    split_ifs <;> rfl
  rw [← hkv]
  unfold renameArchOps
  refine List.mem_append_left _ (List.mem_append_left _ ?_)
  exact List.mem_map.mpr ⟨(key, field), List.mem_filter.mpr ⟨hmem, by simp [hskip]⟩, rfl⟩

/-- Witness for C7 at a concrete reader with one INT32 array field. -/
theorem rename_arch_array_copy_witness :
    ("arr0", (⟨[.ARRAY, .INT32], [[5], [6]], [0, 1]⟩ : ReaderField)) ∈
        (GGUFReader.mk [("arr0", ⟨[.ARRAY, .INT32], [[5], [6]], [0, 1]⟩)] []).fields ∧
    "arr0" ∉ skip_keys ∧
    (⟨[.ARRAY, .INT32], [[5], [6]], [0, 1]⟩ : ReaderField).types.head? = some .ARRAY ∧
    WriterOp.add_key_value ⟨"arr0", .ln [5, 6], .ARRAY, some .INT32⟩ ∈
      renameArchOps (GGUFReader.mk [("arr0", ⟨[.ARRAY, .INT32], [[5], [6]], [0, 1]⟩)] []) :=
  ⟨by decide, by decide, rfl,
    rename_arch_array_copy (GGUFReader.mk [("arr0", ⟨[.ARRAY, .INT32], [[5], [6]], [0, 1]⟩)] [])
      "arr0" ⟨[.ARRAY, .INT32], [[5], [6]], [0, 1]⟩ (by decide) (by decide) rfl⟩

/-- C8: every copied STRING-typed field is re-added with the STRING type
tag and the value is exactly the UTF-8 decoding of the field's stored byte
sequence (`field.parts[-1]`). -/
theorem rename_arch_string_copy (reader : GGUFReader) (key : String) (field : ReaderField)
    (hmem : (key, field) ∈ reader.fields) (hskip : key ∉ skip_keys)
    (htype : field.types.head? = some .STRING) (hparts : field.parts ≠ []) :
    WriterOp.add_key_value
      ⟨key, .s (utf8Decode (field.parts.getLast hparts)), .STRING, none⟩ ∈
      renameArchOps reader := by
  have hhead : field.types.headD .UINT8 = .STRING := by
    rw [field.types.headD_eq_head?, htype]
    rfl
  have hlast : field.parts.getLastD [] = field.parts.getLast hparts := by
    rw [field.parts.getLastD_eq_getLast?, List.getLast?_eq_getLast field.parts hparts]
    rfl
  have hkv : fieldKV key field =
      ⟨key, .s (utf8Decode (field.parts.getLast hparts)), .STRING, none⟩ := by
    unfold fieldKV
    rw [hhead, hlast]
    rfl
  rw [← hkv]
  unfold renameArchOps
  refine List.mem_append_left _ (List.mem_append_left _ ?_)
  exact List.mem_map.mpr ⟨(key, field), List.mem_filter.mpr ⟨hmem, by simp [hskip]⟩, rfl⟩

/-- Witness for C8 at a concrete reader with one string field holding the
bytes of "hi". -/
theorem rename_arch_string_copy_witness :
    ("t.name", (⟨[.STRING], [[104, 105]], []⟩ : ReaderField)) ∈
        (GGUFReader.mk [("t.name", ⟨[.STRING], [[104, 105]], []⟩)] []).fields ∧
    "t.name" ∉ skip_keys ∧
    (⟨[.STRING], [[104, 105]], []⟩ : ReaderField).types.head? = some .STRING ∧
    (⟨[.STRING], [[104, 105]], []⟩ : ReaderField).parts ≠ [] ∧
    WriterOp.add_key_value ⟨"t.name", .s (utf8Decode [104, 105]), .STRING, none⟩ ∈
      renameArchOps (GGUFReader.mk [("t.name", ⟨[.STRING], [[104, 105]], []⟩)] []) :=
  ⟨by decide, by decide, rfl, by decide,
    rename_arch_string_copy (GGUFReader.mk [("t.name", ⟨[.STRING], [[104, 105]], []⟩)] [])
      "t.name" ⟨[.STRING], [[104, 105]], []⟩ (by decide) (by decide) rfl (by decide)⟩

/-- C9: for a reader whose field keys are pairwise distinct, the metadata
copy loop never fails with `DuplicateKey`: the only key the writer holds at
construction, `general.architecture`, is in `skip_keys` and is never
re-inserted, and each remaining key is inserted at most once. -/
theorem rename_arch_no_duplicate_key (reader : GGUFReader) (output_path new_arch : String)
    (hkeys : (reader.fields.map Prod.fst).Nodup) :
    ∃ w : GGUFWriter,
      runOps (GGUFWriter.init output_path new_arch) (kvOps reader.fields) = .ok w := by
  rw [kvOps_eq_map]
  exact ⟨_, runOps_kvAdds _ _ (copied_keys_nodup reader.fields hkeys)
    (copied_fresh reader.fields new_arch)⟩

/-- Witness for C9 at a concrete reader whose fields repeat no key and
include the pre-inserted `general.architecture`. -/
theorem rename_arch_no_duplicate_key_witness :
    (((GGUFReader.mk
        [("general.architecture", ⟨[.STRING], [[97]], []⟩),
         ("n.heads", ⟨[.UINT32], [[8]], []⟩)] []).fields.map Prod.fst).Nodup) ∧
    ∃ w : GGUFWriter,
      runOps (GGUFWriter.init "out.gguf" "beta")
        (kvOps (GGUFReader.mk
          [("general.architecture", ⟨[.STRING], [[97]], []⟩),
           ("n.heads", ⟨[.UINT32], [[8]], []⟩)] []).fields) = .ok w :=
  ⟨by decide,
    rename_arch_no_duplicate_key
      (GGUFReader.mk
        [("general.architecture", ⟨[.STRING], [[97]], []⟩),
         ("n.heads", ⟨[.UINT32], [[8]], []⟩)] []) "out.gguf" "beta" (by decide)⟩

/-- C10: `rename_arch` is deterministic: two runs on equal reader contents,
equal output path and equal new architecture name perform the same sequence
of writer operations and produce the same output container contents. -/
theorem rename_arch_deterministic (r1 r2 : GGUFReader) (p1 p2 a1 a2 : String)
    (hr : r1 = r2) (hp : p1 = p2) (ha : a1 = a2) :
    renameArchFullTrace r1 p1 a1 = renameArchFullTrace r2 p2 a2 ∧
    rename_arch r1 p1 a1 = rename_arch r2 p2 a2 := by
  subst hr
  subst hp
  subst ha
  exact ⟨rfl, rfl⟩

/-- Witness for C10 at a concrete reader, path and architecture name. -/
theorem rename_arch_deterministic_witness :
    (GGUFReader.mk [("n.heads", ⟨[.UINT32], [[8]], []⟩)] [] : GGUFReader) =
        GGUFReader.mk [("n.heads", ⟨[.UINT32], [[8]], []⟩)] [] ∧
    ("out.gguf" : String) = "out.gguf" ∧
    ("beta" : String) = "beta" ∧
    (renameArchFullTrace (GGUFReader.mk [("n.heads", ⟨[.UINT32], [[8]], []⟩)] [])
        "out.gguf" "beta" =
      renameArchFullTrace (GGUFReader.mk [("n.heads", ⟨[.UINT32], [[8]], []⟩)] [])
        "out.gguf" "beta" ∧
      rename_arch (GGUFReader.mk [("n.heads", ⟨[.UINT32], [[8]], []⟩)] [])
          "out.gguf" "beta" =
        rename_arch (GGUFReader.mk [("n.heads", ⟨[.UINT32], [[8]], []⟩)] [])
          "out.gguf" "beta") :=
  ⟨rfl, rfl, rfl,
    rename_arch_deterministic
      (GGUFReader.mk [("n.heads", ⟨[.UINT32], [[8]], []⟩)] [])
      (GGUFReader.mk [("n.heads", ⟨[.UINT32], [[8]], []⟩)] [])
      "out.gguf" "out.gguf" "beta" "beta" rfl rfl rfl⟩

end GGUF
